import Mathlib

/-!
Verification development for the GeoJSON polygon simplifier
(`src/streamlit_app.py`).

The program's data is dictionary-shaped GeoJSON.  We embed it shallowly:
coordinates are pairs of rationals (modelling the Python floats, whose
floating-point specifics none of the verified claims depend on), a geometry
is a tagged union dispatched on its GeoJSON `type` string, a feature is an
optional identifier, a property mapping and a geometry.  The external
`shapely` simplification primitive is a parameter of `simplify_features`;
a concrete Douglas-Peucker instantiation modelled from the specification
is provided where a claim needs its vertex-count behaviour.
-/

namespace GeoApp

/-- A coordinate position: a pair of rationals modelling the Python floats. -/
abbrev Position : Type := ℚ × ℚ

/-- A linear ring: an ordered list of coordinate positions (a valid GeoJSON
ring repeats its first position as its last; the code never checks this). -/
abbrev LinearRing : Type := List Position

/-- Polygon coordinates: a list of rings (exterior first, then holes). -/
abbrev PolyRings : Type := List LinearRing

/-- A GeoJSON geometry, dispatched in the source by its `type` string.
The four structurally-modelled constructors carry the coordinates the code
reads; `other` carries the `type` string of any further GeoJSON geometry
type (MultiPoint, MultiLineString, GeometryCollection, ...), whose
coordinates the program never inspects. -/
inductive Geometry : Type where
  | point (c : Position)
  | lineString (cs : List Position)
  | polygon (rings : PolyRings)
  | multiPolygon (polys : List PolyRings)
  | other (tag : String)
deriving DecidableEq

/-- The geometry's `type` string, as read by `feature['geometry']['type']`. -/
def Geometry.geom_type : Geometry → String
  | .point _ => "Point"
  | .lineString _ => "LineString"
  | .polygon _ => "Polygon"
  | .multiPolygon _ => "MultiPolygon"
  | .other tag => tag

/-- Feature properties: an ordered key/value mapping (values modelled as
strings; the code only ever passes the mapping through whole). -/
abbrev Props : Type := List (String × String)

/-- A GeoJSON feature: optional top-level `id`, `properties`, `geometry`. -/
structure Feature : Type where
  id : Option String
  properties : Props
  geometry : Geometry
deriving DecidableEq

/-- The source's `count_coordinates(geometry)`: total number of
coordinates of a Polygon (sum of ring lengths) or MultiPolygon (nested
ring-length sum); `0` for every other geometry type. -/
def count_coordinates : Geometry → ℕ
  | .polygon rings => (rings.map List.length).sum
  | .multiPolygon polys =>
      (polys.map (fun polygon => (polygon.map List.length).sum)).sum
  | _ => 0

/-- The branch condition of the simplification loop:
`geom_type in ['Polygon', 'MultiPolygon']`. -/
def polygonal (feature : Feature) : Bool :=
  ["Polygon", "MultiPolygon"].contains feature.geometry.geom_type

/-- The body of one iteration of the `simplify_features` loop.  On the
polygonal branch the source builds a fresh `geojson.Feature` from the
simplified geometry and the original `properties` (the constructor is given
no `id`, so the new feature has none); otherwise the input feature is
appended as is.  `sg` stands for the external shapely call
`shapely_geom.simplify(tolerance, preserve_topology=True)`. -/
def simplify_feature_step (sg : ℚ → Geometry → Geometry) (tolerance : ℚ)
    (feature : Feature) : Feature :=
  if ["Polygon", "MultiPolygon"].contains feature.geometry.geom_type then
    { id := none
      properties := feature.properties
      geometry := sg tolerance feature.geometry }
  else feature

/-- The source's `simplify_features(features, tolerance)`: start from an
empty list and append, per input feature, either the freshly built
simplified feature or the input feature itself. -/
def simplify_features (sg : ℚ → Geometry → Geometry) (features : List Feature)
    (tolerance : ℚ) : List Feature :=
  features.foldl
    (fun simplified feature =>
      simplified ++ [simplify_feature_step sg tolerance feature]) []

/-- Object-identity bookkeeping for the same loop: for each input feature,
`true` when the `else` branch appends the input object itself to the output
list (a shared reference) and `false` when the polygonal branch constructs
a brand-new `geojson.Feature` object. -/
def simplify_features_shares (features : List Feature) : List Bool :=
  features.foldl
    (fun flags feature =>
      if ["Polygon", "MultiPolygon"].contains feature.geometry.geom_type then
        flags ++ [false]
      else flags ++ [true]) []

/-- Squared length of the chord from `a` to `b`. -/
def seg_len2 (a b : Position) : ℚ :=
  (b.1 - a.1) ^ 2 + (b.2 - a.2) ^ 2

/-- Squared distance between two positions. -/
def dist2 (a p : Position) : ℚ :=
  (p.1 - a.1) ^ 2 + (p.2 - a.2) ^ 2

/-- Squared cross product of `b - a` and `p - a`; the squared perpendicular
deviation of `p` from the chord through `a` and `b`, scaled by
`seg_len2 a b`. -/
def cross2 (a b p : Position) : ℚ :=
  ((b.1 - a.1) * (p.2 - a.2) - (b.2 - a.2) * (p.1 - a.1)) ^ 2

/-- Deviation measure of `p` from the chord `a`-`b`, for comparisons within
one chord: the squared scaled perpendicular deviation, or the squared
distance to `a` when the chord is degenerate. -/
def dev_measure (a b p : Position) : ℚ :=
  if seg_len2 a b = 0 then dist2 a p else cross2 a b p

/-- Deviation threshold matching `dev_measure` against a tolerance `tol`:
`dev_measure a b p <= dev_threshold tol a b` iff the perpendicular deviation
of `p` from the chord is at most `tol`. -/
def dev_threshold (tol : ℚ) (a b : Position) : ℚ :=
  if seg_len2 a b = 0 then tol ^ 2 else tol ^ 2 * seg_len2 a b

/-- Index (within `mid`) and measure of the point of maximum deviation from
the chord `a`-`b`. -/
def max_dev_idx (a b : Position) (mid : List Position) : ℕ × ℚ :=
  mid.enum.foldl
    (fun best ip =>
      if best.2 < dev_measure a b ip.2 then (ip.1, dev_measure a b ip.2)
      else best)
    (0, -1)

/-- Modelled from the spec: the recursive core of the Douglas-Peucker
simplification that the specification ascribes to the external shapely call
`shapely_geom.simplify(tolerance, preserve_topology=True)` (library code
not present in this repository).  Given a polyline, if every interior point
deviates from the endpoint chord by at most the tolerance only the
endpoints are kept, otherwise the polyline is split at the point of maximum
deviation and both halves are simplified.  `fuel` bounds the recursion
depth; called with `fuel = pts.length` it never runs out. -/
def simplify_ring_aux : ℕ → ℚ → List Position → List Position
  | 0, _, pts => pts
  | fuel + 1, tol, a :: b :: c :: tl =>
      let rest := b :: c :: tl
      let lst := rest.getLast?.getD a
      let mid := rest.dropLast
      let km := max_dev_idx a lst mid
      if km.2 ≤ dev_threshold tol a lst then [a, lst]
      else
        simplify_ring_aux fuel tol (a :: mid.take (km.1 + 1)) ++
          (simplify_ring_aux fuel tol (mid.drop km.1 ++ [lst])).drop 1
  | _ + 1, _, pts => pts

/-- Modelled from the spec: Douglas-Peucker simplification of one ring. -/
def simplify_ring (tol : ℚ) (ring : LinearRing) : LinearRing :=
  simplify_ring_aux ring.length tol ring

/-- Modelled from the spec: the external shapely simplification primitive
`shapely_geom.simplify(tolerance, preserve_topology=True)`, applied by the
source only to Polygon and MultiPolygon geometries.  Per spec section 4.1 it
runs a Douglas-Peucker-class vertex reduction independently on every ring of
every polygon; every other geometry is left unchanged. -/
def shapely_simplify (tolerance : ℚ) : Geometry → Geometry
  | .polygon rings => .polygon (rings.map (simplify_ring tolerance))
  | .multiPolygon polys =>
      .multiPolygon (polys.map (fun polygon =>
        polygon.map (simplify_ring tolerance)))
  | g => g

/-- The reduction statistic of line 71 of the source:
`((original_coords - simplified_coords) / original_coords * 100) if
original_coords > 0 else 0`, over exact rationals. -/
def reduction_pct (original_coords simplified_coords : ℕ) : ℚ :=
  if original_coords > 0 then
    ((original_coords : ℚ) - (simplified_coords : ℚ)) /
      (original_coords : ℚ) * 100
  else 0

/-- Advisory classification attached to the reduction percentage. -/
inductive Band : Type where
  | tooAggressive
  | recommended
  | noFlag
deriving DecidableEq

/-- The threshold banding of lines 80-83 of the source:
`if reduction_pct > 85: warning; elif reduction_pct >= 50 and
reduction_pct <= 80: success`. -/
def reduction_band (p : ℚ) : Band :=
  if p > 85 then .tooAggressive
  else if 50 ≤ p ∧ p ≤ 80 then .recommended
  else .noFlag

/-- A parsed top-level GeoJSON document, as dispatched on its `type` string
by lines 53-59 of the source.  `other` carries the `type` string of any
document that is neither a Feature nor a FeatureCollection. -/
inductive GeoDoc : Type where
  | featureCollection (features : List Feature)
  | feature (f : Feature)
  | other (tag : String)

/-- The document's top-level `type` string. -/
def GeoDoc.type_tag : GeoDoc → String
  | .featureCollection _ => "FeatureCollection"
  | .feature _ => "Feature"
  | .other tag => tag

/-- Lines 53-59 of the source: extract the flat feature list, or report the
validation error and stop (`st.error` followed by `st.stop()`). -/
def extract_features : GeoDoc → Except String (List Feature)
  | .featureCollection features => .ok features
  | .feature f => .ok [f]
  | .other _ =>
      .error "Invalid GeoJSON type. Please upload a FeatureCollection or Feature."

/-- Lines 67-70 of the source: total coordinate count over the features
whose geometry type is Polygon or MultiPolygon. -/
def total_polygonal_coords (features : List Feature) : ℕ :=
  ((features.filter polygonal).map
    (fun feature => count_coordinates feature.geometry)).sum

/-- Everything the processing pipeline produces for a valid document. -/
structure AppOutput : Type where
  simplified_features : List Feature
  original_coords : ℕ
  simplified_coords : ℕ
  reduction : ℚ
  band : Band

/-- Lines 48-83 of the source, the processing pipeline behind the upload
handler: dispatch on the top-level `type` (halting with the validation
error otherwise), simplify, recount coordinates, derive the reduction
percentage and its advisory band.  `sg` is the external shapely
simplification primitive. -/
def run_app (sg : ℚ → Geometry → Geometry) (doc : GeoDoc) (tolerance : ℚ) :
    Except String AppOutput :=
  match extract_features doc with
  | .error e => .error e
  | .ok features =>
      let simplified_features := simplify_features sg features tolerance
      let original_coords := total_polygonal_coords features
      let simplified_coords := total_polygonal_coords simplified_features
      let pct := reduction_pct original_coords simplified_coords
      .ok
        { simplified_features := simplified_features
          original_coords := original_coords
          simplified_coords := simplified_coords
          reduction := pct
          band := reduction_band pct }

/-! ## Helper lemmas -/

/-- A fold that appends one image per element is a map. -/
theorem foldl_snoc_eq_append_map {α β : Type} (g : α → β) :
    ∀ (fs : List α) (acc : List β),
      fs.foldl (fun a f => a ++ [g f]) acc = acc ++ fs.map g
  | [], acc => by simp
  | f :: fs, acc => by
      simp [foldl_snoc_eq_append_map g fs]

/-- The simplification loop builds the per-feature map of its body. -/
theorem simplify_features_eq_map (sg : ℚ → Geometry → Geometry)
    (features : List Feature) (tolerance : ℚ) :
    simplify_features sg features tolerance =
      features.map (simplify_feature_step sg tolerance) := by
  simpa using foldl_snoc_eq_append_map (simplify_feature_step sg tolerance)
    features []

/-- The sharing flags are the per-feature map of the branch condition. -/
theorem simplify_features_shares_eq_map (features : List Feature) :
    simplify_features_shares features = features.map (fun f => !polygonal f) := by
  have h : (fun (flags : List Bool) (feature : Feature) =>
        if ["Polygon", "MultiPolygon"].contains feature.geometry.geom_type then
          flags ++ [false]
        else flags ++ [true]) =
      fun flags feature => flags ++ [!polygonal feature] := by
    funext flags feature
    by_cases hp : feature.geometry.geom_type = "Polygon"
    · simp [polygonal, hp]
    · by_cases hm : feature.geometry.geom_type = "MultiPolygon" <;>
        simp [polygonal, hp, hm]
  unfold simplify_features_shares
  rw [h]
  simpa using foldl_snoc_eq_append_map (fun f => !polygonal f) features []

/-- The loop body never touches the feature's properties. -/
theorem step_properties (sg : ℚ → Geometry → Geometry) (tolerance : ℚ)
    (f : Feature) :
    (simplify_feature_step sg tolerance f).properties = f.properties := by
  unfold simplify_feature_step
  split <;> rfl

/-! ## Claims -/

/-- C1: for every sequence of features and every tolerance,
`simplify_features` returns a sequence of the same length, and the output at
each index is the image of the input at the same index (output ordering
matches input ordering exactly). -/
theorem C1_cardinality_preservation (sg : ℚ → Geometry → Geometry)
    (features : List Feature) (tolerance : ℚ) :
    (simplify_features sg features tolerance).length = features.length ∧
    ∀ i : ℕ, (simplify_features sg features tolerance)[i]? =
      (features[i]?).map (simplify_feature_step sg tolerance) := by
  rw [simplify_features_eq_map]
  exact ⟨by simp, fun i => by simp⟩

/-- C2: the properties of every output feature equal the properties of the
input feature at the same position; `simplify_features` never alters any
feature's properties. -/
theorem C2_property_invariance (sg : ℚ → Geometry → Geometry)
    (features : List Feature) (tolerance : ℚ) :
    (simplify_features sg features tolerance).map Feature.properties =
      features.map Feature.properties ∧
    ∀ i : ℕ, ((simplify_features sg features tolerance)[i]?).map
        Feature.properties = (features[i]?).map Feature.properties := by
  rw [simplify_features_eq_map]
  constructor
  · rw [List.map_map]
    exact List.map_congr_left fun f _ => step_properties sg tolerance f
  · intro i
    simp only [List.getElem?_map]
    cases features[i]? with
    | none => rfl
    | some f => simp [step_properties]

/-- C4: `count_coordinates` returns the sum of ring lengths for a Polygon,
the same ring summation applied to each constituent polygon for a
MultiPolygon, and 0 for every other geometry type. -/
theorem C4_count_coordinates_def :
    (∀ rings : PolyRings,
      count_coordinates (.polygon rings) = (rings.map List.length).sum) ∧
    (∀ polys : List PolyRings,
      count_coordinates (.multiPolygon polys) =
        (polys.map (fun p => count_coordinates (.polygon p))).sum) ∧
    (∀ c, count_coordinates (.point c) = 0) ∧
    (∀ cs, count_coordinates (.lineString cs) = 0) ∧
    (∀ tag, count_coordinates (.other tag) = 0) :=
  ⟨fun _ => rfl, fun _ => rfl, fun _ => rfl, fun _ => rfl, fun _ => rfl⟩

/-- C5: the reduction percentage is
`(original - simplified) / original * 100` when the original total is
positive and `0` when the original total is zero; the zero case is guarded,
so the division never happens with a zero denominator. -/
theorem C5_reduction_pct_guard (o s : ℕ) :
    (0 < o → reduction_pct o s = ((o : ℚ) - (s : ℚ)) / (o : ℚ) * 100) ∧
    (o = 0 → reduction_pct o s = 0) := by
  constructor
  · intro h
    simp [reduction_pct, h]
  · intro h
    simp [reduction_pct, h]

/-- Witness for C5 at original = 4, simplified = 1 and at original = 0. -/
theorem C5_reduction_pct_guard_witness :
    reduction_pct 4 1 = 75 ∧ reduction_pct 0 5 = 0 := by
  constructor
  · rw [(C5_reduction_pct_guard 4 1).1 (by norm_num)]
    norm_num
  · exact (C5_reduction_pct_guard 0 5).2 rfl

/-- C9: the band is `tooAggressive` exactly when the percentage exceeds 85
and `recommended` exactly when it lies in [50, 80]; the classification is a
function of the percentage alone. -/
theorem C9_threshold_bands (p : ℚ) :
    (reduction_band p = .tooAggressive ↔ p > 85) ∧
    (reduction_band p = .recommended ↔ 50 ≤ p ∧ p ≤ 80) := by
  unfold reduction_band
  split_ifs with h1 h2 <;> refine ⟨?_, ?_⟩ <;> simp_all
  intros
  linarith

/-- C8: a parsed document whose top-level type is neither Feature nor
FeatureCollection makes the pipeline halt with the user-facing validation
error; no simplified output is produced. -/
theorem C8_invalid_type_rejection (sg : ℚ → Geometry → Geometry)
    (doc : GeoDoc) (tolerance : ℚ) (h1 : doc.type_tag ≠ "Feature")
    (h2 : doc.type_tag ≠ "FeatureCollection") :
    run_app sg doc tolerance =
      .error "Invalid GeoJSON type. Please upload a FeatureCollection or Feature." := by
  cases doc with
  | featureCollection features => exact absurd rfl h2
  | feature f => exact absurd rfl h1
  | other tag => rfl

/-- Witness for C8 on a GeometryCollection document. -/
theorem C8_invalid_type_rejection_witness :
    (GeoDoc.other "GeometryCollection").type_tag ≠ "Feature" ∧
    run_app shapely_simplify (GeoDoc.other "GeometryCollection") (3 / 100000) =
      .error "Invalid GeoJSON type. Please upload a FeatureCollection or Feature." :=
  ⟨by decide,
    C8_invalid_type_rejection shapely_simplify (GeoDoc.other "GeometryCollection")
      (3 / 100000) (by decide) (by decide)⟩

/-- A concrete Point feature for counterexamples and witnesses. -/
def demo_point_feature : Feature :=
  { id := some "abc"
    properties := [("name", "pt")]
    geometry := .point (0, 0) }

/-- A concrete one-ring Polygon feature for witnesses. -/
def demo_polygon_feature : Feature :=
  { id := some "p1"
    properties := [("name", "square")]
    geometry := .polygon [[(0, 0), (0, 1), (1, 1), (1, 0), (0, 0)]] }

/-- C6 counterexample: on a Point feature the loop's `else` branch appends
the input object itself, so the output slot is a shared reference to the
original, not a copy: the sharing flag is `true`, refuting the claim that a
non-polygonal feature is passed through as a copy (flag `false`). -/
theorem C6_counterexample :
    simplify_features_shares [demo_point_feature] = [true] ∧
    simplify_features_shares [demo_point_feature] ≠ [false] := by
  constructor
  · rfl
  · decide

/-- C6 (amended): a feature whose geometry type is neither Polygon nor
MultiPolygon is returned unchanged regardless of the tolerance, and it is
passed through as a shared reference to the original object, not as a
copy. -/
theorem C6_passthrough_unchanged_shared (sg : ℚ → Geometry → Geometry)
    (features : List Feature) (tolerance : ℚ) (i : ℕ) (f : Feature)
    (hget : features[i]? = some f) (hp : polygonal f = false) :
    (simplify_features sg features tolerance)[i]? = some f ∧
    (simplify_features_shares features)[i]? = some true := by
  have hcond : ¬f.geometry.geom_type = "Polygon" ∧
      ¬f.geometry.geom_type = "MultiPolygon" := by
    simpa [polygonal] using hp
  constructor
  · rw [simplify_features_eq_map]
    simp [hget, simplify_feature_step, hcond.1, hcond.2]
  · rw [simplify_features_shares_eq_map]
    simp [hget, polygonal, hcond.1, hcond.2]

/-- Witness for C6 (amended) on a concrete Point feature. -/
theorem C6_passthrough_unchanged_shared_witness :
    [demo_point_feature][0]? = some demo_point_feature ∧
    polygonal demo_point_feature = false ∧
    ((simplify_features shapely_simplify [demo_point_feature] (3 / 100000))[0]? =
        some demo_point_feature ∧
      (simplify_features_shares [demo_point_feature])[0]? = some true) :=
  ⟨rfl, by decide,
    C6_passthrough_unchanged_shared shapely_simplify [demo_point_feature]
      (3 / 100000) 0 demo_point_feature rfl (by decide)⟩

/-- C10: a Polygon/MultiPolygon feature is replaced by a brand-new feature
holding only the simplified geometry and the original properties — its
top-level `id` is absent (`none`) — while a feature of any other geometry
type is passed through with its `id` intact. -/
theorem C10_id_dropped_on_polygonal (sg : ℚ → Geometry → Geometry)
    (features : List Feature) (tolerance : ℚ) (i : ℕ) (f : Feature)
    (hget : features[i]? = some f) :
    (polygonal f = true →
      (simplify_features sg features tolerance)[i]? =
        some { id := none
               properties := f.properties
               geometry := sg tolerance f.geometry }) ∧
    (polygonal f = false →
      (simplify_features sg features tolerance)[i]? = some f) := by
  rw [simplify_features_eq_map]
  have hbase : (features.map (simplify_feature_step sg tolerance))[i]? =
      some (simplify_feature_step sg tolerance f) := by
    simp [hget]
  constructor <;> intro hp
  · have hp2 : f.geometry.geom_type = "Polygon" ∨
        f.geometry.geom_type = "MultiPolygon" := by
      simpa [polygonal] using hp
    rw [hbase]
    simp [simplify_feature_step, hp2]
  · have hp2 : ¬f.geometry.geom_type = "Polygon" ∧
        ¬f.geometry.geom_type = "MultiPolygon" := by
      simpa [polygonal] using hp
    rw [hbase]
    simp [simplify_feature_step, hp2.1, hp2.2]

/-- Witness for C10: the polygonal branch on a concrete Polygon feature
drops its `id`, and the passthrough branch on a concrete Point feature
keeps its `id`. -/
theorem C10_id_dropped_on_polygonal_witness :
    [demo_polygon_feature, demo_point_feature][0]? = some demo_polygon_feature ∧
    (simplify_features shapely_simplify [demo_polygon_feature, demo_point_feature]
        (3 / 100000))[0]? =
      some { id := none
             properties := demo_polygon_feature.properties
             geometry :=
               shapely_simplify (3 / 100000) demo_polygon_feature.geometry } :=
  ⟨rfl,
    (C10_id_dropped_on_polygonal shapely_simplify
        [demo_polygon_feature, demo_point_feature] (3 / 100000) 0
        demo_polygon_feature rfl).1 (by decide)⟩

/-- Douglas-Peucker never adds points: the simplified polyline is at most
as long as the input. -/
theorem simplify_ring_aux_length_le (fuel : ℕ) :
    ∀ (tol : ℚ) (pts : List Position),
      (simplify_ring_aux fuel tol pts).length ≤ pts.length := by
  induction fuel with
  | zero => intro tol pts; exact le_rfl
  | succ fuel ih =>
    intro tol pts
    match pts with
    | [] => simp [simplify_ring_aux]
    | [a] => simp [simplify_ring_aux]
    | [a, b] => simp [simplify_ring_aux]
    | a :: b :: c :: tl =>
      simp only [simplify_ring_aux]
      split
      · simp
      · set lst := (b :: c :: tl).getLast?.getD a with hlst
        set mid := (b :: c :: tl).dropLast with hmid
        set k := (max_dev_idx a lst mid).1 with hk
        have h1 := ih tol (a :: mid.take (k + 1))
        have h2 := ih tol (mid.drop k ++ [lst])
        have hmidlen : mid.length = tl.length + 1 := by
          rw [hmid]
          simp
        simp only [List.length_append, List.length_drop, List.length_cons,
          List.length_take, List.length_nil] at h1 h2 ⊢
        have hminA : min (k + 1) mid.length ≤ k + 1 := Nat.min_le_left _ _
        have hminB : min (k + 1) mid.length ≤ mid.length := Nat.min_le_right _ _
        omega

/-- The ring simplifier never adds points. -/
theorem simplify_ring_length_le (tol : ℚ) (ring : LinearRing) :
    (simplify_ring tol ring).length ≤ ring.length :=
  simplify_ring_aux_length_le ring.length tol ring

/-- The modelled shapely simplification never increases the coordinate
count of a geometry. -/
theorem count_shapely_simplify_le (tol : ℚ) (g : Geometry) :
    count_coordinates (shapely_simplify tol g) ≤ count_coordinates g := by
  cases g with
  | polygon rings =>
    simp only [shapely_simplify, count_coordinates, List.map_map]
    exact List.sum_le_sum fun ring _ => simplify_ring_length_le tol ring
  | multiPolygon polys =>
    simp only [shapely_simplify, count_coordinates, List.map_map]
    refine List.sum_le_sum fun polygon _ => ?_
    simp only [Function.comp_apply, List.map_map]
    exact List.sum_le_sum fun ring _ => simplify_ring_length_le tol ring
  | point c => exact le_rfl
  | lineString cs => exact le_rfl
  | other tag => exact le_rfl

/-- The modelled shapely simplification keeps the geometry's type tag. -/
theorem geom_type_shapely_simplify (tol : ℚ) (g : Geometry) :
    (shapely_simplify tol g).geom_type = g.geom_type := by
  cases g <;> rfl

/-- The loop body with the modelled simplifier keeps the branch
condition. -/
theorem polygonal_step (tol : ℚ) (f : Feature) :
    polygonal (simplify_feature_step shapely_simplify tol f) = polygonal f := by
  unfold polygonal simplify_feature_step
  split
  · simp [geom_type_shapely_simplify]
  · rfl

/-- The loop body with the modelled simplifier never increases a feature's
coordinate count. -/
theorem step_count_le (tol : ℚ) (f : Feature) :
    count_coordinates (simplify_feature_step shapely_simplify tol f).geometry ≤
      count_coordinates f.geometry := by
  unfold simplify_feature_step
  split
  · exact count_shapely_simplify_le tol f.geometry
  · exact le_rfl

/-- The simplified collection's polygonal coordinate total never exceeds
the original's. -/
theorem total_simplified_le (features : List Feature) (tolerance : ℚ) :
    total_polygonal_coords
        (simplify_features shapely_simplify features tolerance) ≤
      total_polygonal_coords features := by
  rw [simplify_features_eq_map]
  induction features with
  | nil => exact le_rfl
  | cons f fs ih =>
    simp only [List.map_cons, total_polygonal_coords, List.filter_cons,
      polygonal_step] at ih ⊢
    by_cases hp : polygonal f
    · simp only [hp, if_true, List.map_cons, List.sum_cons]
      exact Nat.add_le_add (step_count_le tolerance f) ih
    · have hp2 : polygonal f = false := by simpa using hp
      simp only [hp2, Bool.false_eq_true, if_false]
      exact ih

/-- C7: whenever the original polygonal coordinate total is positive, the
reduction percentage computed by the pipeline (with the spec-modelled
simplifier) lies between 0 and 100 inclusive — equivalently, the simplified
total is non-negative and never exceeds the original total, at any
tolerance. -/
theorem C7_reduction_bound (features : List Feature) (tolerance : ℚ)
    (h : 0 < total_polygonal_coords features) :
    total_polygonal_coords
        (simplify_features shapely_simplify features tolerance) ≤
      total_polygonal_coords features ∧
    0 ≤ reduction_pct (total_polygonal_coords features)
        (total_polygonal_coords
          (simplify_features shapely_simplify features tolerance)) ∧
    reduction_pct (total_polygonal_coords features)
        (total_polygonal_coords
          (simplify_features shapely_simplify features tolerance)) ≤ 100 := by
  set o := total_polygonal_coords features with ho
  set s := total_polygonal_coords
    (simplify_features shapely_simplify features tolerance) with hs
  have hle : s ≤ o := total_simplified_le features tolerance
  have hoQ : (0 : ℚ) < (o : ℚ) := by exact_mod_cast h
  have hsQ : (s : ℚ) ≤ (o : ℚ) := by exact_mod_cast hle
  have hs0 : (0 : ℚ) ≤ (s : ℚ) := by positivity
  refine ⟨hle, ?_, ?_⟩
  · rw [reduction_pct, if_pos h]
    apply mul_nonneg _ (by norm_num)
    apply div_nonneg _ (le_of_lt hoQ)
    linarith
  · rw [reduction_pct, if_pos h, div_mul_eq_mul_div, div_le_iff₀ hoQ]
    linarith

/-- Witness for C7 on a one-feature collection holding a five-coordinate
square ring, at the slider's default tolerance. -/
theorem C7_reduction_bound_witness :
    0 < total_polygonal_coords [demo_polygon_feature] ∧
    (total_polygonal_coords
        (simplify_features shapely_simplify [demo_polygon_feature]
          (3 / 100000)) ≤
      total_polygonal_coords [demo_polygon_feature] ∧
    0 ≤ reduction_pct (total_polygonal_coords [demo_polygon_feature])
        (total_polygonal_coords
          (simplify_features shapely_simplify [demo_polygon_feature]
            (3 / 100000))) ∧
    reduction_pct (total_polygonal_coords [demo_polygon_feature])
        (total_polygonal_coords
          (simplify_features shapely_simplify [demo_polygon_feature]
            (3 / 100000))) ≤ 100) :=
  ⟨by decide, C7_reduction_bound [demo_polygon_feature] (3 / 100000) (by decide)⟩

end GeoApp
